import Mathlib

/-!
Verification of the WebSocket telemetry server
(`samples/hello_ar_kotlin/server/websocket_server.py`).

The embedding models the server's connection registry (a Python `set`),
the per-message dispatcher inside `handle_connection`, Python's
`json.loads` decoder, `dict.get` lookup with defaults, `:.Nf` fixed-point
formatting, truthiness, and the `AttributeError` raised by calling `.get`
on a non-dict value.  JSON numbers are modelled as exact rationals: the
Python implementation uses machine ints and binary doubles, and the `NaN`
and `Infinity` extensions of its decoder are not modelled.  Exceptions
are modelled with `Except`: the two `except` arms of the message loop
turn an exceptional result into an error log line, so no message ever
terminates the loop.
-/

namespace WsServer

attribute [local semireducible] Rat.mul Rat.inv Rat.add Rat.sub Rat.ofScientific

/-- JSON values as decoded by the server; numbers are exact rationals. -/
inductive Json where
  | null : Json
  | bool : Bool → Json
  | num : ℚ → Json
  | str : String → Json
  | arr : List Json → Json
  | obj : List (String × Json) → Json

/-- Fields of a decoded JSON object, in source order. -/
abbrev Fields := List (String × Json)

/-- Last binding of a key in a decoded object: later duplicate keys win,
as in the Python dict built by the json decoder. -/
def lookupLast (fields : Fields) (k : String) : Option Json :=
  match fields with
  | [] => none
  | (k2, v) :: rest =>
    match lookupLast rest k with
    | some w => some w
    | none => if k2 = k then some v else none

/-- Python `d.get(k, default)` on a dict. -/
def dictGet (fields : Fields) (k : String) (d : Json) : Json :=
  (lookupLast fields k).getD d

/-- Python `==` between a decoded value and a string literal: false for
every non-string value. -/
def typeEq (v : Json) (s : String) : Bool :=
  match v with
  | .str t => t = s
  | _ => false

/-- Python truthiness of a decoded JSON value. -/
def truthy : Json → Bool
  | .null => false
  | .bool b => b
  | .num q => if q = 0 then false else true
  | .str s => s != ""
  | .arr xs => !xs.isEmpty
  | .obj fs => !fs.isEmpty

/-- The Python type name appearing in error messages; integral rationals
print as int, the rest as float (ints and floats are conflated by the
rational model). -/
def typeName : Json → String
  | .null => "NoneType"
  | .bool _ => "bool"
  | .num q => if q.den = 1 then "int" else "float"
  | .str _ => "str"
  | .arr _ => "list"
  | .obj _ => "dict"

/-- Message of the AttributeError raised by `v.get(...)` on a non-dict. -/
def noGet (v : Json) : String :=
  "'" ++ typeName v ++ "' object has no attribute 'get'"

/-- Python `v.get(k, d)`: field lookup when `v` is a dict, AttributeError
otherwise. -/
def pyGet (v : Json) (k : String) (d : Json) : Except String Json :=
  match v with
  | .obj fs => .ok (dictGet fs k d)
  | v => .error (noGet v)

/-- Round a rational to the nearest integer, ties to even, as Python's
fixed-point float formatting does. -/
def roundHalfEven (q : ℚ) : ℤ :=
  let f := q.num.fdiv (q.den : ℤ)
  let r2 := 2 * (q.num - f * (q.den : ℤ))
  if r2 < (q.den : ℤ) then f
  else if r2 > (q.den : ℤ) then f + 1
  else if f % 2 = 0 then f else f + 1

/-- Left-pad a digit string with zeros to the given width. -/
def padZeros (s : String) (n : Nat) : String :=
  String.mk (List.replicate (n - s.length) '0') ++ s

/-- Python format spec `.Nf` applied to an exact rational value.  The sign
comes from the operand, not the rounded integer, so a negative value that
rounds to zero prints a signed zero exactly as CPython does. -/
def formatFixed (q : ℚ) (prec : Nat) : String :=
  let n := roundHalfEven (q * ((10 : ℚ) ^ prec))
  let sign := if q.num < 0 then "-" else ""
  let m := n.natAbs
  let ip := m / 10 ^ prec
  let fp := m % 10 ^ prec
  if prec = 0 then sign ++ toString ip
  else sign ++ toString ip ++ "." ++ padZeros (toString fp) prec

/-- Applying the format spec `.Nf` to a decoded value: numbers format,
bools format as 0 or 1 (bool is an int subclass in Python), everything
else raises as in Python. -/
def fmtVal (v : Json) (prec : Nat) : Except String String :=
  match v with
  | .num q => .ok (formatFixed q prec)
  | .bool b => .ok (formatFixed (if b then 1 else 0) prec)
  | .str _ => .error "Unknown format code 'f' for object of type 'str'"
  | v => .error ("unsupported format string passed to " ++ typeName v ++ ".__format__")

/-- Smallest decimal precision that makes the rational integral, up to the
given fuel; used to render parsed floats back to decimal text. -/
def decPrec : Nat → ℚ → Nat
  | 0, _ => 0
  | fuel + 1, q => if q.den = 1 then 0 else 1 + decPrec fuel (q * 10)

mutual

/-- Python `repr` of a decoded JSON value (string rendering of nested
containers; numeric text is the shortest exact decimal, an approximation
of CPython's float repr that agrees on the values this server handles). -/
def pyRepr : Json → String
  | .null => "None"
  | .bool b => if b then "True" else "False"
  | .num q =>
      if q.den = 1 then toString q.num
      else formatFixed q (decPrec 4000 q)
  | .str s => "'" ++ s ++ "'"
  | .arr xs => "[" ++ String.intercalate ", " (pyReprList xs) ++ "]"
  | .obj fs => "\x7b" ++ String.intercalate ", " (pyReprFields fs) ++ "\x7d"

/-- Reprs of the elements of a decoded array. -/
def pyReprList : List Json → List String
  | [] => []
  | v :: vs => pyRepr v :: pyReprList vs

/-- Reprs of the entries of a decoded object. -/
def pyReprFields : List (String × Json) → List String
  | [] => []
  | (k, v) :: fs => ("'" ++ k ++ "': " ++ pyRepr v) :: pyReprFields fs

end

/-- Python `str()` of a decoded value, as interpolated by an f-string:
identical to repr except on strings, which interpolate without quotes. -/
def pyStr : Json → String
  | .str s => s
  | v => pyRepr v

/-- One log record emitted through the logging module. -/
inductive LogEvent where
  | info : String → LogEvent
  | warning : String → LogEvent
  | error : String → LogEvent
deriving DecidableEq

/-- The nested-shape pose branch of the dispatcher (message type `pose`):
position and rotation are nested objects, the toggle flag is
`isToggleActive`; evaluation order matches the Python source (position,
rotation, toggle, scale), and any formatting failure raises. -/
def nestedPoseLine (ts : String) (fs : Fields) : Except String (List LogEvent) := do
  let pos := dictGet fs "position" (.obj [])
  let rot := dictGet fs "rotation" (.obj [])
  let fx ← fmtVal (← pyGet pos "x" (.num 0)) 3
  let fy ← fmtVal (← pyGet pos "y" (.num 0)) 3
  let fz ← fmtVal (← pyGet pos "z" (.num 0)) 3
  let froll ← fmtVal (← pyGet rot "roll" (.num 0)) 2
  let fpitch ← fmtVal (← pyGet rot "pitch" (.num 0)) 2
  let fyaw ← fmtVal (← pyGet rot "yaw" (.num 0)) 2
  let toggle := if truthy (dictGet fs "isToggleActive" (.bool false)) then "Active" else "Inactive"
  let fscale ← fmtVal (dictGet fs "scale" (.num 1)) 2
  pure [LogEvent.info ("[" ++ ts ++ "] Position: X=" ++ fx ++ ", Y=" ++ fy ++ ", Z=" ++ fz ++
    " | Rotation: Roll=" ++ froll ++ "°, Pitch=" ++ fpitch ++ "°, Yaw=" ++ fyaw ++
    "° | Scale: " ++ fscale ++ " | Toggle: " ++ toggle)]

/-- The flat-shape pose branch of the dispatcher (message type `pose_data`
or absent): telemetry fields at top level, toggle flag `toggle_active`. -/
def flatPoseLine (ts : String) (fs : Fields) : Except String (List LogEvent) := do
  let fx ← fmtVal (dictGet fs "x" (.num 0)) 3
  let fy ← fmtVal (dictGet fs "y" (.num 0)) 3
  let fz ← fmtVal (dictGet fs "z" (.num 0)) 3
  let froll ← fmtVal (dictGet fs "roll" (.num 0)) 2
  let fpitch ← fmtVal (dictGet fs "pitch" (.num 0)) 2
  let fyaw ← fmtVal (dictGet fs "yaw" (.num 0)) 2
  let fscale ← fmtVal (dictGet fs "scale" (.num 1)) 2
  let toggle := if truthy (dictGet fs "toggle_active" (.bool false)) then "Active" else "Inactive"
  pure [LogEvent.info ("[" ++ ts ++ "] Position: X=" ++ fx ++ ", Y=" ++ fy ++ ", Z=" ++ fz ++
    " | Rotation: Roll=" ++ froll ++ "°, Pitch=" ++ fpitch ++ "°, Yaw=" ++ fyaw ++
    "° | Scale: " ++ fscale ++ " | Toggle: " ++ toggle)]

/-- The toggle branch of the dispatcher: `toggle_active` wins over
`isActive`, default false; never raises. -/
def toggleLine (ts : String) (fs : Fields) : List LogEvent :=
  let v := dictGet fs "toggle_active" (dictGet fs "isActive" (.bool false))
  [LogEvent.info ("[" ++ ts ++ "] Toggle state changed: " ++
    (if truthy v then "Active" else "Inactive"))]

/-- One decoded message through the dispatcher body: everything inside the
try block after `json.loads` has succeeded; a raised exception is the
error case.  Reading `type` from a non-dict raises AttributeError. -/
def processData (ts : String) (data : Json) : Except String (List LogEvent) :=
  match data with
  | .obj fs =>
    let mt := dictGet fs "type" (.str "pose_data")
    if typeEq mt "pose_data" || typeEq mt "pose" then
      if typeEq mt "pose" then nestedPoseLine ts fs else flatPoseLine ts fs
    else if typeEq mt "toggle_state" || typeEq mt "toggle" then
      .ok (toggleLine ts fs)
    else if typeEq mt "button_press" || typeEq mt "button" then
      .ok [LogEvent.info ("[" ++ ts ++ "] Button pressed")]
    else if typeEq mt "reset_pose" || typeEq mt "reset" then
      .ok [LogEvent.info ("[" ++ ts ++ "] Pose reset requested")]
    else
      .ok [LogEvent.warning ("[" ++ ts ++ "] Unknown message type: " ++ pyStr mt)]
  | v => .error (noGet v)

/-! The JSON decoder, modelling `json.loads` on one text frame: a single
JSON value, full input consumed up to trailing whitespace. -/

/-- JSON whitespace. -/
def isWs (c : Char) : Bool := c = ' ' || c = '\t' || c = '\n' || c = '\r'

/-- Drop leading JSON whitespace. -/
def skipWs : List Char → List Char
  | [] => []
  | c :: cs => if isWs c then skipWs cs else c :: cs

/-- Numeric value of a decimal digit character. -/
def digitVal (c : Char) : Nat := c.toNat - 48

/-- Split off a maximal run of decimal digits. -/
def takeDigits : List Char → (List Char × List Char)
  | [] => ([], [])
  | c :: cs =>
    if c.isDigit then
      let p := takeDigits cs
      (c :: p.1, p.2)
    else ([], c :: cs)

/-- Value of a digit run, most significant first. -/
def digitsToNat (ds : List Char) : Nat :=
  ds.foldl (fun acc c => 10 * acc + digitVal c) 0

/-- The integer part of a JSON number: 0, or a nonzero digit followed by
digits (leading zeros are not part of the grammar). -/
def parseIntDigits : List Char → Option (List Char × List Char)
  | '0' :: rest => some (['0'], rest)
  | c :: rest =>
    if c.isDigit then
      let p := takeDigits rest
      some (c :: p.1, p.2)
    else none
  | [] => none

/-- The optional fractional part: a dot with at least one digit; anything
else leaves the input untouched. -/
def parseFrac (cs : List Char) : (List Char × List Char) :=
  match cs with
  | '.' :: rest =>
    match takeDigits rest with
    | ([], _) => ([], cs)
    | (ds, rest2) => (ds, rest2)
  | _ => ([], cs)

/-- The optional exponent part; absent when malformed, leaving the input
untouched. -/
def parseExp (cs : List Char) : (Option ℤ × List Char) :=
  match cs with
  | c :: rest =>
    if c = 'e' || c = 'E' then
      let p : (ℤ × List Char) :=
        match rest with
        | '+' :: r => (1, r)
        | '-' :: r => (-1, r)
        | _ => (1, rest)
      match takeDigits p.2 with
      | ([], _) => (none, cs)
      | (ds, rest3) => (some (p.1 * (digitsToNat ds : ℤ)), rest3)
    else (none, cs)
  | [] => (none, cs)

/-- A JSON number: optional minus, integer part, optional fraction and
exponent, as an exact rational. -/
def parseNumber (cs0 : List Char) : Option (ℚ × List Char) :=
  let p0 : (Bool × List Char) :=
    match cs0 with
    | '-' :: rest => (true, rest)
    | _ => (false, cs0)
  match parseIntDigits p0.2 with
  | none => none
  | some (ids, cs2) =>
    let pf := parseFrac cs2
    let pe := parseExp pf.2
    let mant : ℚ := (digitsToNat ids : ℚ) + (digitsToNat pf.1 : ℚ) / ((10 : ℚ) ^ pf.1.length)
    let q0 : ℚ := mant * (10 : ℚ) ^ (pe.1.getD 0)
    some ((if p0.1 then -q0 else q0), pe.2)

/-- Value of a hexadecimal digit character. -/
def hexVal (c : Char) : Option Nat :=
  if c.isDigit then some (c.toNat - 48)
  else if 'a' ≤ c ∧ c ≤ 'f' then some (c.toNat - 97 + 10)
  else if 'A' ≤ c ∧ c ≤ 'F' then some (c.toNat - 65 + 10)
  else none

/-- Body of a JSON string after the opening quote, with the standard
escapes; unpaired surrogate escapes are not modelled, and unescaped
control characters are rejected as in the decoder's strict mode. -/
def parseStringBody : List Char → Option (List Char × List Char)
  | [] => none
  | c :: cs =>
    if c = '"' then some ([], cs)
    else if c = '\\' then
      match cs with
      | [] => none
      | 'u' :: h1 :: h2 :: h3 :: h4 :: cs3 =>
        match hexVal h1, hexVal h2, hexVal h3, hexVal h4 with
        | some v1, some v2, some v3, some v4 =>
          match parseStringBody cs3 with
          | none => none
          | some (out, rest) =>
            some (Char.ofNat (4096 * v1 + 256 * v2 + 16 * v3 + v4) :: out, rest)
        | _, _, _, _ => none
      | e :: cs2 =>
        let esc : Option Char :=
          if e = '"' then some '"'
          else if e = '\\' then some '\\'
          else if e = '/' then some '/'
          else if e = 'b' then some (Char.ofNat 8)
          else if e = 'f' then some (Char.ofNat 12)
          else if e = 'n' then some '\n'
          else if e = 'r' then some '\r'
          else if e = 't' then some '\t'
          else none
        match esc with
        | none => none
        | some ch =>
          match parseStringBody cs2 with
          | none => none
          | some (out, rest) => some (ch :: out, rest)
    else if c.toNat < 32 then none
    else
      match parseStringBody cs with
      | none => none
      | some (out, rest) => some (c :: out, rest)

/-- Opening brace character. -/
def lbrace : Char := Char.ofNat 123

/-- Closing brace character. -/
def rbrace : Char := Char.ofNat 125

mutual

/-- One JSON value, leading whitespace allowed; fuel bounds the nesting
depth and exceeds the input length at the top-level call. -/
def parseValue : Nat → List Char → Option (Json × List Char)
  | 0, _ => none
  | fuel + 1, cs =>
    match skipWs cs with
    | [] => none
    | c :: rest =>
      if c = '"' then
        match parseStringBody rest with
        | some (out, rest2) => some (Json.str (String.mk out), rest2)
        | none => none
      else if c = lbrace then
        match skipWs rest with
        | [] => none
        | c2 :: rest2 =>
          if c2 = rbrace then some (Json.obj [], rest2)
          else parseMembers fuel [] (c2 :: rest2)
      else if c = '[' then
        match skipWs rest with
        | ']' :: rest2 => some (Json.arr [], rest2)
        | cs2 => parseElements fuel [] cs2
      else if c = 't' then
        match rest with
        | 'r' :: 'u' :: 'e' :: rest2 => some (Json.bool true, rest2)
        | _ => none
      else if c = 'f' then
        match rest with
        | 'a' :: 'l' :: 's' :: 'e' :: rest2 => some (Json.bool false, rest2)
        | _ => none
      else if c = 'n' then
        match rest with
        | 'u' :: 'l' :: 'l' :: rest2 => some (Json.null, rest2)
        | _ => none
      else
        match parseNumber (c :: rest) with
        | some (q, rest2) => some (Json.num q, rest2)
        | none => none

/-- The members of an object after the opening brace, first key expected
next; accumulates fields in source order. -/
def parseMembers : Nat → Fields → List Char → Option (Json × List Char)
  | 0, _, _ => none
  | fuel + 1, acc, cs =>
    match skipWs cs with
    | '"' :: rest =>
      match parseStringBody rest with
      | none => none
      | some (kout, rest2) =>
        match skipWs rest2 with
        | ':' :: rest3 =>
          match parseValue fuel rest3 with
          | none => none
          | some (v, rest4) =>
            let acc2 := acc ++ [(String.mk kout, v)]
            match skipWs rest4 with
            | ',' :: rest5 => parseMembers fuel acc2 rest5
            | c :: rest5 => if c = rbrace then some (Json.obj acc2, rest5) else none
            | [] => none
        | _ => none
    | _ => none

/-- The elements of a nonempty array after the opening bracket. -/
def parseElements : Nat → List Json → List Char → Option (Json × List Char)
  | 0, _, _ => none
  | fuel + 1, acc, cs =>
    match parseValue fuel cs with
    | none => none
    | some (v, rest) =>
      match skipWs rest with
      | ',' :: rest2 => parseElements fuel (acc ++ [v]) rest2
      | ']' :: rest2 => some (Json.arr (acc ++ [v]), rest2)
      | _ => none

end

/-- Python `json.loads` on one text frame: a single JSON value with the
whole input consumed, or a decode failure. -/
def json_loads (s : String) : Option Json :=
  match parseValue (s.length + 1) s.data with
  | some (v, rest) => if (skipWs rest).isEmpty then some v else none
  | none => none

/-- One inbound text frame through `handle_connection`: decode, dispatch,
and the two except arms; `ts` is the clock reading taken for the frame. -/
def processMessage (ts : String) (message : String) : List LogEvent :=
  match json_loads message with
  | none => [LogEvent.error ("Failed to parse message: " ++ message)]
  | some data =>
    match processData ts data with
    | .ok evs => evs
    | .error e => [LogEvent.error ("Error processing message: " ++ e)]

/-- The message loop of `handle_connection`: one (clock reading, payload)
pair per inbound frame; every frame is processed in order and no
exception escapes a frame. -/
def handleMessages (frames : List (String × String)) : List LogEvent :=
  frames.flatMap (fun f => processMessage f.1 f.2)

/-! The connection registry: the module-level `CLIENTS` set. -/

/-- Connection handles are opaque; modelled by naturals. -/
abbrev Conn := ℕ

/-- `register(websocket)`: `CLIENTS.add`, unconditional insertion. -/
def register (c : Conn) (clients : Finset Conn) : Finset Conn :=
  insert c clients

/-- `unregister(websocket)`: `CLIENTS.remove`, which raises KeyError when
the handle is absent. -/
def unregister (c : Conn) (clients : Finset Conn) : Except String (Finset Conn) :=
  if c ∈ clients then .ok (clients.erase c) else .error ("KeyError: " ++ toString c)

/-- A sequence of connects applied to the registry. -/
def registerAll (cs : List Conn) (s : Finset Conn) : Finset Conn :=
  cs.foldl (fun acc c => register c acc) s

/-- A sequence of disconnects applied to the registry; the first KeyError
propagates. -/
def unregisterAll (ds : List Conn) (s : Finset Conn) : Except String (Finset Conn) :=
  match ds with
  | [] => .ok s
  | d :: rest =>
    match unregister d s with
    | .ok s2 => unregisterAll rest s2
    | .error e => .error e

/-! Helper lemmas about lookups, branch selection and evaluation of the
pose branches.  These are shared by several claim theorems. -/

theorem lookupLast_cons_ne (k2 k : String) (v : Json) (fs : Fields) (h : k2 ≠ k) :
    lookupLast ((k2, v) :: fs) k = lookupLast fs k := by
  show (match lookupLast fs k with
        | some w => some w
        | none => if k2 = k then some v else none) = lookupLast fs k
  cases lookupLast fs k <;> simp [h]

theorem lookupLast_cons_absent (k : String) (v : Json) (fs : Fields)
    (h : lookupLast fs k = none) :
    lookupLast ((k, v) :: fs) k = some v := by
  show (match lookupLast fs k with
        | some w => some w
        | none => if k = k then some v else none) = some v
  rw [h]
  simp

theorem dictGet_cons_ne (k2 k : String) (v d : Json) (fs : Fields) (h : k2 ≠ k) :
    dictGet ((k2, v) :: fs) k d = dictGet fs k d := by
  unfold dictGet
  rw [lookupLast_cons_ne k2 k v fs h]

theorem typeEq_true_iff (v : Json) (s : String) : typeEq v s = true ↔ v = Json.str s := by
  cases v <;> simp [typeEq]

/-- Branch selection: a `type` of `pose` reaches the nested-shape branch. -/
theorem processData_pose_nested (ts : String) (fs : Fields)
    (htype : dictGet fs "type" (Json.str "pose_data") = Json.str "pose") :
    processData ts (Json.obj fs) = nestedPoseLine ts fs := by
  simp [processData, htype, typeEq]

/-- Branch selection: a `type` equal to `pose_data` (possibly by default)
reaches the flat-shape branch. -/
theorem processData_pose_flat (ts : String) (fs : Fields)
    (htype : typeEq (dictGet fs "type" (Json.str "pose_data")) "pose_data" = true) :
    processData ts (Json.obj fs) = flatPoseLine ts fs := by
  rw [typeEq_true_iff] at htype
  simp [processData, htype, typeEq]

/-- Evaluation of the nested-shape branch when every consulted value is a
number (by presence or by default). -/
theorem nestedPoseLine_eval (ts : String) (fs ps rs : Fields)
    (x y z roll pitch yaw sc : ℚ) (tog : Bool)
    (hpos : dictGet fs "position" (Json.obj []) = Json.obj ps)
    (hrot : dictGet fs "rotation" (Json.obj []) = Json.obj rs)
    (hx : dictGet ps "x" (Json.num 0) = Json.num x)
    (hy : dictGet ps "y" (Json.num 0) = Json.num y)
    (hz : dictGet ps "z" (Json.num 0) = Json.num z)
    (hroll : dictGet rs "roll" (Json.num 0) = Json.num roll)
    (hpitch : dictGet rs "pitch" (Json.num 0) = Json.num pitch)
    (hyaw : dictGet rs "yaw" (Json.num 0) = Json.num yaw)
    (hsc : dictGet fs "scale" (Json.num 1) = Json.num sc)
    (htog : truthy (dictGet fs "isToggleActive" (Json.bool false)) = tog) :
    nestedPoseLine ts fs =
      Except.ok [LogEvent.info ("[" ++ ts ++ "] Position: X=" ++ formatFixed x 3 ++
        ", Y=" ++ formatFixed y 3 ++ ", Z=" ++ formatFixed z 3 ++
        " | Rotation: Roll=" ++ formatFixed roll 2 ++ "°, Pitch=" ++ formatFixed pitch 2 ++
        "°, Yaw=" ++ formatFixed yaw 2 ++ "° | Scale: " ++ formatFixed sc 2 ++
        " | Toggle: " ++ (if tog then "Active" else "Inactive"))] := by
  unfold nestedPoseLine
  rw [hpos, hrot]
  simp [pyGet, hx, hy, hz, hroll, hpitch, hyaw, hsc, htog, fmtVal, Except.bind]
  rfl

/-- Evaluation of the flat-shape branch when every consulted value is a
number (by presence or by default). -/
theorem flatPoseLine_eval (ts : String) (fs : Fields)
    (x y z roll pitch yaw sc : ℚ) (tog : Bool)
    (hx : dictGet fs "x" (Json.num 0) = Json.num x)
    (hy : dictGet fs "y" (Json.num 0) = Json.num y)
    (hz : dictGet fs "z" (Json.num 0) = Json.num z)
    (hroll : dictGet fs "roll" (Json.num 0) = Json.num roll)
    (hpitch : dictGet fs "pitch" (Json.num 0) = Json.num pitch)
    (hyaw : dictGet fs "yaw" (Json.num 0) = Json.num yaw)
    (hsc : dictGet fs "scale" (Json.num 1) = Json.num sc)
    (htog : truthy (dictGet fs "toggle_active" (Json.bool false)) = tog) :
    flatPoseLine ts fs =
      Except.ok [LogEvent.info ("[" ++ ts ++ "] Position: X=" ++ formatFixed x 3 ++
        ", Y=" ++ formatFixed y 3 ++ ", Z=" ++ formatFixed z 3 ++
        " | Rotation: Roll=" ++ formatFixed roll 2 ++ "°, Pitch=" ++ formatFixed pitch 2 ++
        "°, Yaw=" ++ formatFixed yaw 2 ++ "° | Scale: " ++ formatFixed sc 2 ++
        " | Toggle: " ++ (if tog then "Active" else "Inactive"))] := by
  unfold flatPoseLine
  simp [hx, hy, hz, hroll, hpitch, hyaw, hsc, htog, fmtVal, Except.bind]
  rfl

/-- Stepping the decode match of processMessage on a successful dispatch. -/
theorem processMessage_ok (ts msg : String) (d : Json) (evs : List LogEvent)
    (hp : json_loads msg = some d) (hd : processData ts d = Except.ok evs) :
    processMessage ts msg = evs := by
  unfold processMessage
  rw [hp]
  show (match processData ts d with
        | Except.ok evs2 => evs2
        | Except.error e => [LogEvent.error ("Error processing message: " ++ e)]) = evs
  rw [hd]

/-- Stepping the decode match of processMessage on a raised exception. -/
theorem processMessage_raised (ts msg e : String) (d : Json)
    (hp : json_loads msg = some d) (hd : processData ts d = Except.error e) :
    processMessage ts msg = [LogEvent.error ("Error processing message: " ++ e)] := by
  unfold processMessage
  rw [hp]
  show (match processData ts d with
        | Except.ok evs2 => evs2
        | Except.error e2 => [LogEvent.error ("Error processing message: " ++ e2)]) =
    [LogEvent.error ("Error processing message: " ++ e)]
  rw [hd]

/-! Claim theorems. -/

/-- C1 counterexample: calling unregister on a handle that is not in the
registry does not leave the registry unchanged without raising; it raises
a KeyError, because the source uses `set.remove` rather than
`set.discard`. -/
theorem unregister_absent_raises :
    unregister 0 (∅ : Finset Conn) = Except.error "KeyError: 0" ∧
    unregister 0 (∅ : Finset Conn) ≠ Except.ok (∅ : Finset Conn) := by
  refine ⟨by simp [unregister]; rfl, ?_⟩
  intro h
  simp [unregister] at h

/-- C1 (amended): unregister removes the handle when it is present; on a
handle that is not in the registry it raises a KeyError instead of
returning. -/
theorem unregister_spec (c : Conn) (s : Finset Conn) :
    (c ∈ s → unregister c s = Except.ok (s.erase c)) ∧
    (c ∉ s → unregister c s = Except.error ("KeyError: " ++ toString c)) := by
  constructor <;> intro h <;> simp [unregister, h]

theorem unregister_spec_witness :
    (0 ∈ ({0} : Finset Conn)) ∧
    unregister 0 ({0} : Finset Conn) = Except.ok (({0} : Finset Conn).erase 0) :=
  ⟨by decide, (unregister_spec 0 {0}).1 (by decide)⟩

/-- C3: a decoded JSON object without a `type` field is dispatched by the
flat-shape pose branch, exactly as if its type were `pose_data`. -/
theorem missing_type_dispatches_as_pose_data (ts : String) (fs : Fields)
    (h : lookupLast fs "type" = none) :
    processData ts (Json.obj fs) = flatPoseLine ts fs ∧
    processData ts (Json.obj fs) =
      processData ts (Json.obj (("type", Json.str "pose_data") :: fs)) := by
  have hdef : dictGet fs "type" (Json.str "pose_data") = Json.str "pose_data" := by
    simp [dictGet, h]
  have h1 : processData ts (Json.obj fs) = flatPoseLine ts fs :=
    processData_pose_flat ts fs (by rw [typeEq_true_iff, hdef])
  have hdef2 : dictGet (("type", Json.str "pose_data") :: fs) "type" (Json.str "pose_data") =
      Json.str "pose_data" := by
    simp [dictGet, lookupLast_cons_absent "type" (Json.str "pose_data") fs h]
  have h2 : processData ts (Json.obj (("type", Json.str "pose_data") :: fs)) =
      flatPoseLine ts (("type", Json.str "pose_data") :: fs) :=
    processData_pose_flat ts _ (by rw [typeEq_true_iff, hdef2])
  have h3 : flatPoseLine ts (("type", Json.str "pose_data") :: fs) = flatPoseLine ts fs := by
    unfold flatPoseLine
    rw [dictGet_cons_ne "type" "x" _ _ fs (by decide),
      dictGet_cons_ne "type" "y" _ _ fs (by decide),
      dictGet_cons_ne "type" "z" _ _ fs (by decide),
      dictGet_cons_ne "type" "roll" _ _ fs (by decide),
      dictGet_cons_ne "type" "pitch" _ _ fs (by decide),
      dictGet_cons_ne "type" "yaw" _ _ fs (by decide),
      dictGet_cons_ne "type" "scale" _ _ fs (by decide),
      dictGet_cons_ne "type" "toggle_active" _ _ fs (by decide)]
  exact ⟨h1, by rw [h1, h2, h3]⟩

theorem missing_type_witness :
    processData "t2" (Json.obj [("x", Json.num 1)]) = flatPoseLine "t2" [("x", Json.num 1)] ∧
    processData "t2" (Json.obj [("x", Json.num 1)]) =
      processData "t2" (Json.obj [("type", Json.str "pose_data"), ("x", Json.num 1)]) :=
  missing_type_dispatches_as_pose_data "t2" [("x", Json.num 1)] rfl

/-- C7: on a message of type `toggle_state` or `toggle`, the logged state
comes from `toggle_active` when present, else from `isActive` when
present, else defaults to false, rendered as Active or Inactive in a
state-change line. -/
theorem toggle_branch_precedence (ts : String) (fs : Fields)
    (h : typeEq (dictGet fs "type" (Json.str "pose_data")) "toggle_state" = true ∨
         typeEq (dictGet fs "type" (Json.str "pose_data")) "toggle" = true) :
    processData ts (Json.obj fs) =
      Except.ok [LogEvent.info ("[" ++ ts ++ "] Toggle state changed: " ++
        (if truthy (match lookupLast fs "toggle_active" with
                    | some w => w
                    | none => (lookupLast fs "isActive").getD (Json.bool false))
         then "Active" else "Inactive"))] := by
  have hv : dictGet fs "toggle_active" (dictGet fs "isActive" (Json.bool false)) =
      (match lookupLast fs "toggle_active" with
       | some w => w
       | none => (lookupLast fs "isActive").getD (Json.bool false)) := by
    unfold dictGet
    cases lookupLast fs "toggle_active" <;> simp
  rcases h with h | h <;> rw [typeEq_true_iff] at h <;>
    simp [processData, h, typeEq, toggleLine, hv]

theorem toggle_branch_witness :
    processData "t3" (Json.obj [("type", Json.str "toggle"), ("isActive", Json.bool true)]) =
      Except.ok [LogEvent.info "[t3] Toggle state changed: Active"] :=
  toggle_branch_precedence "t3" [("type", Json.str "toggle"), ("isActive", Json.bool true)]
    (Or.inr rfl)

/-- C2: a nested-shape message logs one line with position formatted to 3
decimal places, rotation to 2, scale to 2 (default 1.0), and the toggle
rendered as Active or Inactive. -/
theorem nested_pose_log (ts : String) (fs ps rs : Fields)
    (x y z roll pitch yaw sc : ℚ) (tog : Bool)
    (htype : dictGet fs "type" (Json.str "pose_data") = Json.str "pose")
    (hpos : dictGet fs "position" (Json.obj []) = Json.obj ps)
    (hrot : dictGet fs "rotation" (Json.obj []) = Json.obj rs)
    (hx : dictGet ps "x" (Json.num 0) = Json.num x)
    (hy : dictGet ps "y" (Json.num 0) = Json.num y)
    (hz : dictGet ps "z" (Json.num 0) = Json.num z)
    (hroll : dictGet rs "roll" (Json.num 0) = Json.num roll)
    (hpitch : dictGet rs "pitch" (Json.num 0) = Json.num pitch)
    (hyaw : dictGet rs "yaw" (Json.num 0) = Json.num yaw)
    (hsc : dictGet fs "scale" (Json.num 1) = Json.num sc)
    (htog : truthy (dictGet fs "isToggleActive" (Json.bool false)) = tog) :
    processData ts (Json.obj fs) =
      Except.ok [LogEvent.info ("[" ++ ts ++ "] Position: X=" ++ formatFixed x 3 ++
        ", Y=" ++ formatFixed y 3 ++ ", Z=" ++ formatFixed z 3 ++
        " | Rotation: Roll=" ++ formatFixed roll 2 ++ "°, Pitch=" ++ formatFixed pitch 2 ++
        "°, Yaw=" ++ formatFixed yaw 2 ++ "° | Scale: " ++ formatFixed sc 2 ++
        " | Toggle: " ++ (if tog then "Active" else "Inactive"))] := by
  rw [processData_pose_nested ts fs htype]
  exact nestedPoseLine_eval ts fs ps rs x y z roll pitch yaw sc tog
    hpos hrot hx hy hz hroll hpitch hyaw hsc htog

/-- The scenario payload of the spec, as wire text. -/
def rawPoseScenario : String :=
  "\x7b\"type\":\"pose\",\"position\":\x7b\"x\":1,\"y\":2,\"z\":3\x7d,\"rotation\":\x7b\"roll\":10,\"pitch\":20,\"yaw\":30\x7d,\"scale\":1.5,\"isToggleActive\":true\x7d"

/-- The scenario payload, decoded. -/
def scenarioFields : Fields :=
  [("type", Json.str "pose"),
   ("position", Json.obj [("x", Json.num 1), ("y", Json.num 2), ("z", Json.num 3)]),
   ("rotation", Json.obj [("roll", Json.num 10), ("pitch", Json.num 20), ("yaw", Json.num 30)]),
   ("scale", Json.num (3 / 2)),
   ("isToggleActive", Json.bool true)]

set_option maxRecDepth 16000 in
theorem nested_pose_log_witness :
    processMessage "12:00:00.000" rawPoseScenario =
      [LogEvent.info "[12:00:00.000] Position: X=1.000, Y=2.000, Z=3.000 | Rotation: Roll=10.00°, Pitch=20.00°, Yaw=30.00° | Scale: 1.50 | Toggle: Active"] := by
  have hp : json_loads rawPoseScenario = some (Json.obj scenarioFields) := by rfl
  have h := nested_pose_log "12:00:00.000" scenarioFields
    [("x", Json.num 1), ("y", Json.num 2), ("z", Json.num 3)]
    [("roll", Json.num 10), ("pitch", Json.num 20), ("yaw", Json.num 30)]
    1 2 3 10 20 30 (3 / 2) true
    rfl rfl rfl rfl rfl rfl rfl rfl rfl rfl rfl
  rw [processMessage_ok "12:00:00.000" rawPoseScenario (Json.obj scenarioFields) _ hp h]
  rfl

/-- C8: a flat-shape message (type `pose_data`, possibly by default) reads
x, y, z, roll, pitch, yaw and scale from the top level and the toggle flag
from `toggle_active`; a missing numeric field defaults to 0, a missing
scale to 1.0, a missing toggle flag to false. -/
theorem flat_pose_fields_and_defaults (ts : String) (fs : Fields)
    (x y z roll pitch yaw sc : ℚ) (tog : Bool)
    (htype : typeEq (dictGet fs "type" (Json.str "pose_data")) "pose_data" = true)
    (hx : dictGet fs "x" (Json.num 0) = Json.num x)
    (hy : dictGet fs "y" (Json.num 0) = Json.num y)
    (hz : dictGet fs "z" (Json.num 0) = Json.num z)
    (hroll : dictGet fs "roll" (Json.num 0) = Json.num roll)
    (hpitch : dictGet fs "pitch" (Json.num 0) = Json.num pitch)
    (hyaw : dictGet fs "yaw" (Json.num 0) = Json.num yaw)
    (hsc : dictGet fs "scale" (Json.num 1) = Json.num sc)
    (htog : truthy (dictGet fs "toggle_active" (Json.bool false)) = tog) :
    processData ts (Json.obj fs) =
      Except.ok [LogEvent.info ("[" ++ ts ++ "] Position: X=" ++ formatFixed x 3 ++
        ", Y=" ++ formatFixed y 3 ++ ", Z=" ++ formatFixed z 3 ++
        " | Rotation: Roll=" ++ formatFixed roll 2 ++ "°, Pitch=" ++ formatFixed pitch 2 ++
        "°, Yaw=" ++ formatFixed yaw 2 ++ "° | Scale: " ++ formatFixed sc 2 ++
        " | Toggle: " ++ (if tog then "Active" else "Inactive"))] := by
  rw [processData_pose_flat ts fs htype]
  exact flatPoseLine_eval ts fs x y z roll pitch yaw sc tog
    hx hy hz hroll hpitch hyaw hsc htog

theorem flat_pose_defaults_witness :
    processData "t4" (Json.obj []) =
      Except.ok [LogEvent.info "[t4] Position: X=0.000, Y=0.000, Z=0.000 | Rotation: Roll=0.00°, Pitch=0.00°, Yaw=0.00° | Scale: 1.00 | Toggle: Inactive"] :=
  flat_pose_fields_and_defaults "t4" [] 0 0 0 0 0 0 1 false
    rfl rfl rfl rfl rfl rfl rfl rfl rfl

/-- C4: an unparseable payload logs a parse-failure error referencing the
raw text, and the message loop continues: the frames after it are
processed exactly as they would be on their own. -/
theorem unparseable_message_isolated (ts s : String)
    (h : json_loads s = none) :
    processMessage ts s = [LogEvent.error ("Failed to parse message: " ++ s)] ∧
    ∀ rest : List (String × String),
      handleMessages ((ts, s) :: rest) =
        LogEvent.error ("Failed to parse message: " ++ s) :: handleMessages rest := by
  have h1 : processMessage ts s = [LogEvent.error ("Failed to parse message: " ++ s)] := by
    unfold processMessage
    rw [h]
  exact ⟨h1, fun rest => by simp [handleMessages, h1]⟩

set_option maxRecDepth 8000 in
theorem unparseable_message_witness :
    handleMessages [("10:00:00.000", "not json"),
        ("10:00:00.100", "\x7b\"type\": \"button\"\x7d")] =
      [LogEvent.error "Failed to parse message: not json",
       LogEvent.info "[10:00:00.100] Button pressed"] := by
  have h := unparseable_message_isolated "10:00:00.000" "not json" rfl
  rw [h.2 [("10:00:00.100", "\x7b\"type\": \"button\"\x7d")]]
  rfl

/-- C5: an exception raised while the dispatcher extracts or formats
fields (other than a decode failure) is caught and logged as an error
with its message, and the loop continues with the remaining frames. -/
theorem processing_error_absorbed (ts msg e : String) (d : Json)
    (hp : json_loads msg = some d) (he : processData ts d = Except.error e) :
    processMessage ts msg = [LogEvent.error ("Error processing message: " ++ e)] ∧
    ∀ rest : List (String × String),
      handleMessages ((ts, msg) :: rest) =
        LogEvent.error ("Error processing message: " ++ e) :: handleMessages rest := by
  have h1 : processMessage ts msg = [LogEvent.error ("Error processing message: " ++ e)] :=
    processMessage_raised ts msg e d hp he
  exact ⟨h1, fun rest => by simp [handleMessages, h1]⟩

set_option maxRecDepth 8000 in
theorem processing_error_witness :
    processMessage "t5" "\x7b\"type\": \"pose\", \"position\": 5\x7d" =
      [LogEvent.error "Error processing message: 'int' object has no attribute 'get'"] :=
  (processing_error_absorbed "t5" "\x7b\"type\": \"pose\", \"position\": 5\x7d"
    "'int' object has no attribute 'get'"
    (Json.obj [("type", Json.str "pose"), ("position", Json.num 5)]) rfl rfl).1

/-- Whether a decoded value is a JSON object. -/
def isObj : Json → Bool
  | .obj _ => true
  | _ => false

/-- C9: a payload that decodes to a non-object takes the generic
error-processing branch (an AttributeError from reading `type`), not the
parse-failure branch, and the loop continues. -/
theorem non_object_generic_error (ts s : String) (v : Json)
    (hp : json_loads s = some v) (hv : isObj v = false) :
    processMessage ts s = [LogEvent.error ("Error processing message: " ++ noGet v)] ∧
    ∀ rest : List (String × String),
      handleMessages ((ts, s) :: rest) =
        LogEvent.error ("Error processing message: " ++ noGet v) :: handleMessages rest := by
  have hd : processData ts v = Except.error (noGet v) := by
    cases v <;> simp [processData, isObj] at hv ⊢
  have h1 : processMessage ts s = [LogEvent.error ("Error processing message: " ++ noGet v)] :=
    processMessage_raised ts s (noGet v) v hp hd
  exact ⟨h1, fun rest => by simp [handleMessages, h1]⟩

set_option maxRecDepth 8000 in
theorem non_object_witness :
    processMessage "t6" "[1, 2]" =
      [LogEvent.error "Error processing message: 'list' object has no attribute 'get'"] :=
  (non_object_generic_error "t6" "[1, 2]" (Json.arr [Json.num 1, Json.num 2]) rfl rfl).1

/-- Folding register over a list of handles is set union. -/
theorem registerAll_eq (cs : List Conn) (s : Finset Conn) :
    registerAll cs s = s ∪ cs.toFinset := by
  induction cs generalizing s with
  | nil => simp [registerAll]
  | cons c rest ih =>
    show registerAll rest (insert c s) = s ∪ (c :: rest).toFinset
    rw [ih, List.toFinset_cons, Finset.insert_union, Finset.union_insert]

/-- Folding unregister over distinct present handles succeeds and removes
exactly those handles. -/
theorem unregisterAll_ok (ds : List Conn) (s : Finset Conn)
    (hnd : ds.Nodup) (hsub : ∀ d ∈ ds, d ∈ s) :
    unregisterAll ds s = Except.ok (s \ ds.toFinset) := by
  induction ds generalizing s with
  | nil => simp [unregisterAll]
  | cons d rest ih =>
    have hd : d ∈ s := hsub d (List.mem_cons_self d rest)
    have hu : unregister d s = Except.ok (s.erase d) := by simp [unregister, hd]
    have hnd2 : rest.Nodup := hnd.of_cons
    have hsub2 : ∀ e ∈ rest, e ∈ s.erase d := by
      intro e he
      have hne : e ≠ d := by
        intro hcontra
        exact (List.nodup_cons.mp hnd).1 (hcontra ▸ he)
      exact Finset.mem_erase.mpr ⟨hne, hsub e (List.mem_cons_of_mem d he)⟩
    show (match unregister d s with
          | Except.ok s2 => unregisterAll rest s2
          | Except.error e => Except.error e) = Except.ok (s \ (d :: rest).toFinset)
    rw [hu]
    show unregisterAll rest (s.erase d) = Except.ok (s \ (d :: rest).toFinset)
    rw [ih (s.erase d) hnd2 hsub2, List.toFinset_cons, Finset.sdiff_insert,
      Finset.erase_sdiff_comm]

/-- C6: after N connects of distinct handles followed by M ≤ N disconnects
of distinct previously-connected handles, every disconnect succeeds, the
registry holds the connected-but-not-disconnected handles, its size is
N − M, its underlying multiset has no duplicate handle, and a handle whose
connection has closed is absent. -/
theorem registry_connects_disconnects (cs ds : List Conn)
    (hcs : cs.Nodup) (hds : ds.Nodup) (hsub : ∀ d ∈ ds, d ∈ cs) :
    unregisterAll ds (registerAll cs ∅) =
      Except.ok (cs.toFinset \ ds.toFinset) ∧
    (cs.toFinset \ ds.toFinset).card = cs.length - ds.length ∧
    (cs.toFinset \ ds.toFinset).val.Nodup ∧
    ∀ d ∈ ds, d ∉ cs.toFinset \ ds.toFinset := by
  have hreg : registerAll cs ∅ = cs.toFinset := by
    rw [registerAll_eq, Finset.empty_union]
  have hsub2 : ∀ d ∈ ds, d ∈ cs.toFinset := fun d hd =>
    List.mem_toFinset.mpr (hsub d hd)
  refine ⟨by rw [hreg]; exact unregisterAll_ok ds cs.toFinset hds hsub2, ?_, ?_, ?_⟩
  · rw [Finset.card_sdiff (fun d hd => hsub2 d (List.mem_toFinset.mp hd)),
      List.toFinset_card_of_nodup hcs, List.toFinset_card_of_nodup hds]
  · exact (cs.toFinset \ ds.toFinset).nodup
  · intro d hd hmem
    exact (Finset.mem_sdiff.mp hmem).2 (List.mem_toFinset.mpr hd)

theorem registry_connects_disconnects_witness :
    ([0, 1, 2] : List Conn).Nodup ∧
    unregisterAll [1, 2] (registerAll [0, 1, 2] ∅) =
      Except.ok (([0, 1, 2] : List Conn).toFinset \ ([1, 2] : List Conn).toFinset) ∧
    (([0, 1, 2] : List Conn).toFinset \ ([1, 2] : List Conn).toFinset).card = 1 :=
  have h := registry_connects_disconnects [0, 1, 2] [1, 2]
    (by decide) (by decide) (by decide)
  ⟨by decide, h.1, h.2.1⟩

/-- Whether a field of a decoded object is absent or bound to a number. -/
def numField (fs : Fields) (k : String) : Bool :=
  match lookupLast fs k with
  | none => true
  | some (Json.num _) => true
  | some _ => false

/-- Whether a sub-object field is absent or an object whose listed fields
are each absent or a number. -/
def subObjNumFields (fs : Fields) (k : String) (ks : List String) : Bool :=
  match dictGet fs k (Json.obj []) with
  | Json.obj sub => ks.all (fun k2 => numField sub k2)
  | _ => false

/-- A well-typed field lookup produces a number (by value or by default). -/
theorem numField_dictGet (fs : Fields) (k : String) (d : ℚ)
    (h : numField fs k = true) :
    ∃ q, dictGet fs k (Json.num d) = Json.num q := by
  unfold numField at h
  unfold dictGet
  cases hl : lookupLast fs k with
  | none => exact ⟨d, rfl⟩
  | some v =>
    rw [hl] at h
    cases v <;> simp at h
    exact ⟨_, rfl⟩

/-- A well-typed sub-object lookup produces an object. -/
theorem subObjNumFields_dictGet (fs : Fields) (k : String) (ks : List String)
    (h : subObjNumFields fs k ks = true) :
    ∃ sub, dictGet fs k (Json.obj []) = Json.obj sub ∧
      ∀ k2 ∈ ks, numField sub k2 = true := by
  unfold subObjNumFields at h
  cases hv : dictGet fs k (Json.obj []) with
  | obj sub =>
    rw [hv] at h
    exact ⟨sub, rfl, fun k2 hk2 => by
      have := List.all_eq_true.mp h k2 hk2
      simpa using this⟩
  | null => rw [hv] at h; simp at h
  | bool b => rw [hv] at h; simp at h
  | num q => rw [hv] at h; simp at h
  | str s => rw [hv] at h; simp at h
  | arr xs => rw [hv] at h; simp at h

/-- C10: a pose message, nested or flat, in which every consulted
telemetry field is absent or a number (and the position and rotation
sub-objects, when consulted, are objects with such fields) raises no
exception: the dispatcher returns exactly one pose log line, and the
generic error branch is unreachable. -/
theorem well_typed_pose_single_line (ts : String) (fs : Fields)
    (hbranch : typeEq (dictGet fs "type" (Json.str "pose_data")) "pose_data" = true ∨
               typeEq (dictGet fs "type" (Json.str "pose_data")) "pose" = true)
    (hwt : (if typeEq (dictGet fs "type" (Json.str "pose_data")) "pose" then
              subObjNumFields fs "position" ["x", "y", "z"] &&
              subObjNumFields fs "rotation" ["roll", "pitch", "yaw"] &&
              numField fs "scale"
            else
              ["x", "y", "z", "roll", "pitch", "yaw", "scale"].all
                (fun k => numField fs k)) = true) :
    ∃ line, processData ts (Json.obj fs) = Except.ok [LogEvent.info line] := by
  rcases hbranch with hflat | hnested
  · have hnp : typeEq (dictGet fs "type" (Json.str "pose_data")) "pose" = false := by
      rw [typeEq_true_iff] at hflat
      rw [hflat]
      decide
    rw [hnp] at hwt
    simp only [if_neg Bool.false_ne_true, List.all_eq_true] at hwt
    obtain ⟨x, hx⟩ := numField_dictGet fs "x" 0 (by simpa using hwt "x" (by simp))
    obtain ⟨y, hy⟩ := numField_dictGet fs "y" 0 (by simpa using hwt "y" (by simp))
    obtain ⟨z, hz⟩ := numField_dictGet fs "z" 0 (by simpa using hwt "z" (by simp))
    obtain ⟨roll, hroll⟩ := numField_dictGet fs "roll" 0 (by simpa using hwt "roll" (by simp))
    obtain ⟨pitch, hpitch⟩ := numField_dictGet fs "pitch" 0 (by simpa using hwt "pitch" (by simp))
    obtain ⟨yaw, hyaw⟩ := numField_dictGet fs "yaw" 0 (by simpa using hwt "yaw" (by simp))
    obtain ⟨sc, hsc⟩ := numField_dictGet fs "scale" 1 (by simpa using hwt "scale" (by simp))
    exact ⟨_, (processData_pose_flat ts fs hflat).trans
      (flatPoseLine_eval ts fs x y z roll pitch yaw sc
        (truthy (dictGet fs "toggle_active" (Json.bool false)))
        hx hy hz hroll hpitch hyaw hsc rfl)⟩
  · rw [typeEq_true_iff] at hnested
    rw [hnested] at hwt
    rw [if_pos (show typeEq (Json.str "pose") "pose" = true from rfl)] at hwt
    simp only [Bool.and_eq_true] at hwt
    obtain ⟨⟨hposo, hroto⟩, hsco⟩ := hwt
    obtain ⟨ps, hpos, hpsfield⟩ :=
      subObjNumFields_dictGet fs "position" ["x", "y", "z"] hposo
    obtain ⟨rs, hrot, hrsfield⟩ :=
      subObjNumFields_dictGet fs "rotation" ["roll", "pitch", "yaw"] hroto
    obtain ⟨x, hx⟩ := numField_dictGet ps "x" 0 (hpsfield "x" (by simp))
    obtain ⟨y, hy⟩ := numField_dictGet ps "y" 0 (hpsfield "y" (by simp))
    obtain ⟨z, hz⟩ := numField_dictGet ps "z" 0 (hpsfield "z" (by simp))
    obtain ⟨roll, hroll⟩ := numField_dictGet rs "roll" 0 (hrsfield "roll" (by simp))
    obtain ⟨pitch, hpitch⟩ := numField_dictGet rs "pitch" 0 (hrsfield "pitch" (by simp))
    obtain ⟨yaw, hyaw⟩ := numField_dictGet rs "yaw" 0 (hrsfield "yaw" (by simp))
    obtain ⟨sc, hsc⟩ := numField_dictGet fs "scale" 1 hsco
    exact ⟨_, (processData_pose_nested ts fs hnested).trans
      (nestedPoseLine_eval ts fs ps rs x y z roll pitch yaw sc
        (truthy (dictGet fs "isToggleActive" (Json.bool false)))
        hpos hrot hx hy hz hroll hpitch hyaw hsc rfl)⟩

theorem well_typed_pose_witness :
    ∃ line,
      processData "t7" (Json.obj [("type", Json.str "pose"),
        ("position", Json.obj [("x", Json.num 4)])]) = Except.ok [LogEvent.info line] :=
  well_typed_pose_single_line "t7"
    [("type", Json.str "pose"), ("position", Json.obj [("x", Json.num 4)])]
    (Or.inr rfl) rfl

end WsServer
